import Mathlib

/-!
Verification of the colonyos rust client library.

The development shallowly embeds the library's crypto layer (`src/crypto.rs`),
envelope protocol (`src/rpc.rs`: `compose_rpcmsg`, `send_rpcmsg`, `get_ws_url`)
and the streaming subscription loop (`send_ws_subscribe_channel`).

External crates (k256, sha3, serde_json, reqwest, tungstenite) are modelled by
interface structures carrying the operations the library calls together with
the properties those crates document; the `hex` and `base64` crates are small
enough that their encode/decode functions are embedded concretely.  Rust
panics (`expect`, `unwrap`, `panic!`) are modelled as the error branch of
`Except`/`Option` results.
-/

namespace Colonies

/-! ## Hex encoding (the `hex` crate: lowercase encode, case-insensitive decode) -/

/-- One hex digit, lowercase, for a value `n < 16` (`hex::encode`). -/
def hexDigit (n : Nat) : Char :=
  if n < 10 then Char.ofNat (48 + n) else Char.ofNat (87 + n)

/-- `hex::encode`: each byte becomes two lowercase hex digits. -/
def hexEncodeL (bytes : List Nat) : List Char :=
  bytes.foldr (fun b acc => hexDigit (b / 16) :: hexDigit (b % 16) :: acc) []

def hexEncode (bytes : List Nat) : String :=
  ⟨hexEncodeL bytes⟩

/-- Value of one hex digit character; `none` for a non-hex character
(`hex::decode` accepts both cases). -/
def hexVal (c : Char) : Option Nat :=
  if 48 ≤ c.toNat ∧ c.toNat ≤ 57 then some (c.toNat - 48)
  else if 97 ≤ c.toNat ∧ c.toNat ≤ 102 then some (c.toNat - 87)
  else if 65 ≤ c.toNat ∧ c.toNat ≤ 70 then some (c.toNat - 55)
  else none

/-- `hex::decode` on a character list: pairs of hex digits; fails on odd
length or a non-hex character. -/
def hexDecodeL : List Char → Option (List Nat)
  | [] => some []
  | [_] => none
  | a :: b :: rest =>
    match hexVal a, hexVal b, hexDecodeL rest with
    | some va, some vb, some tail => some ((va * 16 + vb) :: tail)
    | _, _, _ => none

def hexDecode (s : String) : Option (List Nat) :=
  hexDecodeL s.data

theorem hexVal_hexDigit (n : Nat) (h : n < 16) : hexVal (hexDigit n) = some n := by
  interval_cases n <;> decide

theorem hexDecodeL_hexEncodeL (bytes : List Nat) (h : ∀ b ∈ bytes, b < 256) :
    hexDecodeL (hexEncodeL bytes) = some bytes := by
  induction bytes with
  | nil => rfl
  | cons b rest ih =>
    have hb : b < 256 := h b (List.mem_cons_self b rest)
    have h1 : b / 16 < 16 := by omega
    have h2 : b % 16 < 16 := by omega
    have hrest : hexDecodeL (hexEncodeL rest) = some rest :=
      ih (fun x hx => h x (List.mem_cons_of_mem b hx))
    simp only [hexEncodeL, List.foldr_cons] at *
    simp only [hexDecodeL, hexVal_hexDigit _ h1, hexVal_hexDigit _ h2, hrest]
    have : b / 16 * 16 + b % 16 = b := by omega
    rw [this]

theorem hexDecode_hexEncode (bytes : List Nat) (h : ∀ b ∈ bytes, b < 256) :
    hexDecode (hexEncode bytes) = some bytes :=
  hexDecodeL_hexEncodeL bytes h

theorem hexEncodeL_length (bytes : List Nat) :
    (hexEncodeL bytes).length = 2 * bytes.length := by
  induction bytes with
  | nil => rfl
  | cons b rest ih => simp [hexEncodeL, List.foldr_cons] at *; omega

theorem hexEncode_length (bytes : List Nat) :
    (hexEncode bytes).length = 2 * bytes.length := by
  simpa [hexEncode, String.length] using hexEncodeL_length bytes

/-- Hex digits are ASCII hex characters. -/
def isHexChar (c : Char) : Bool :=
  (48 ≤ c.toNat ∧ c.toNat ≤ 57) ∨ (97 ≤ c.toNat ∧ c.toNat ≤ 102)

theorem isHexChar_hexDigit (n : Nat) (h : n < 16) : isHexChar (hexDigit n) = true := by
  interval_cases n <;> decide

theorem hexEncodeL_hexChars (bytes : List Nat) (h : ∀ b ∈ bytes, b < 256) :
    ∀ c ∈ hexEncodeL bytes, isHexChar c = true := by
  induction bytes with
  | nil => intro c hc; simp [hexEncodeL] at hc
  | cons b rest ih =>
    intro c hc
    have hb : b < 256 := h b (List.mem_cons_self b rest)
    simp only [hexEncodeL, List.foldr_cons, List.mem_cons] at hc
    rcases hc with rfl | hc
    · exact isHexChar_hexDigit _ (by omega)
    rcases hc with rfl | hc
    · exact isHexChar_hexDigit _ (by omega)
    · exact ih (fun x hx => h x (List.mem_cons_of_mem b hx)) c hc

/-! ## Base64 (the `base64` crate, `engine::general_purpose::STANDARD`:
standard alphabet, padding required, canonical decoding, no trailing bits) -/

/-- Standard base64 alphabet: value `n < 64` to character. -/
def b64Char (n : Nat) : Char :=
  if n < 26 then Char.ofNat (65 + n)
  else if n < 52 then Char.ofNat (97 + (n - 26))
  else if n < 62 then Char.ofNat (48 + (n - 52))
  else if n = 62 then '+'
  else '/'

/-- Standard base64 alphabet: character to value, `none` outside the alphabet. -/
def b64Val (c : Char) : Option Nat :=
  if 65 ≤ c.toNat ∧ c.toNat ≤ 90 then some (c.toNat - 65)
  else if 97 ≤ c.toNat ∧ c.toNat ≤ 122 then some (c.toNat - 97 + 26)
  else if 48 ≤ c.toNat ∧ c.toNat ≤ 57 then some (c.toNat - 48 + 52)
  else if c = '+' then some 62
  else if c = '/' then some 63
  else none

/-- `STANDARD.encode` over bytes: 3-byte groups to 4 characters, with
`=` padding for a 1- or 2-byte tail. -/
def base64EncodeL : List Nat → List Char
  | [] => []
  | [a] => [b64Char (a / 4), b64Char (a % 4 * 16), '=', '=']
  | [a, b] => [b64Char (a / 4), b64Char (a % 4 * 16 + b / 16), b64Char (b % 16 * 4), '=']
  | a :: b :: c :: rest =>
    b64Char (a / 4) :: b64Char (a % 4 * 16 + b / 16) ::
    b64Char (b % 16 * 4 + c / 64) :: b64Char (c % 64) :: base64EncodeL rest

def base64Encode (bytes : List Nat) : String :=
  ⟨base64EncodeL bytes⟩

/-- `STANDARD.decode` over characters: 4-character groups; requires canonical
padding and zero trailing bits (the crate's `RequireCanonical` /
`decode_allow_trailing_bits = false` defaults). -/
def base64DecodeL : List Char → Option (List Nat)
  | [] => some []
  | a :: b :: c :: d :: rest =>
    (b64Val a).bind fun va =>
    (b64Val b).bind fun vb =>
    if c = '=' then
      if d = '=' ∧ rest = [] ∧ vb % 16 = 0 then some [va * 4 + vb / 16] else none
    else
      (b64Val c).bind fun vc =>
      if d = '=' then
        if rest = [] ∧ vc % 4 = 0 then some [va * 4 + vb / 16, vb % 16 * 16 + vc / 4]
        else none
      else
        (b64Val d).bind fun vd =>
        (base64DecodeL rest).map fun tail =>
          (va * 4 + vb / 16) :: (vb % 16 * 16 + vc / 4) :: (vc % 4 * 64 + vd) :: tail
  | _ => none

def base64Decode (s : String) : Option (List Nat) :=
  base64DecodeL s.data

theorem b64Val_b64Char (n : Nat) (h : n < 64) : b64Val (b64Char n) = some n := by
  interval_cases n <;> decide

theorem b64Char_ne_pad (n : Nat) (h : n < 64) : ¬ (b64Char n = '=') := by
  interval_cases n <;> decide

theorem base64DecodeL_base64EncodeL (bytes : List Nat) (h : ∀ b ∈ bytes, b < 256) :
    base64DecodeL (base64EncodeL bytes) = some bytes := by
  induction bytes using base64EncodeL.induct with
  | case1 => simp [base64EncodeL, base64DecodeL]
  | case2 a =>
    have ha : a < 256 := h a (by simp)
    simp only [base64EncodeL, base64DecodeL,
      b64Val_b64Char (a / 4) (by omega), b64Val_b64Char (a % 4 * 16) (by omega),
      Option.some_bind, if_pos rfl]
    have hpad : a % 4 * 16 % 16 = 0 := by omega
    simp only [hpad, and_self, and_true, true_and, if_true, Option.some.injEq]
    have h2 : a % 4 * 16 / 16 = a % 4 := by omega
    simp only [List.cons.injEq, and_true]
    omega
  | case3 a b =>
    have ha : a < 256 := h a (by simp)
    have hb : b < 256 := h b (by simp)
    simp only [base64EncodeL, base64DecodeL,
      b64Val_b64Char (a / 4) (by omega), b64Val_b64Char (a % 4 * 16 + b / 16) (by omega),
      Option.some_bind]
    rw [if_neg (b64Char_ne_pad (b % 16 * 4) (by omega))]
    simp only [b64Val_b64Char (b % 16 * 4) (by omega), Option.some_bind, if_pos rfl]
    have hpad : b % 16 * 4 % 4 = 0 := by omega
    simp only [hpad, and_self, and_true, true_and, if_true, Option.some.injEq]
    refine List.cons_eq_cons.mpr ⟨by omega, List.cons_eq_cons.mpr ⟨by omega, rfl⟩⟩
  | case4 a b c rest ih =>
    have ha : a < 256 := h a (by simp)
    have hb : b < 256 := h b (by simp)
    have hc : c < 256 := h c (by simp)
    have hrest : base64DecodeL (base64EncodeL rest) = some rest :=
      ih (fun x hx => h x (by simp [hx]))
    simp only [base64EncodeL, base64DecodeL,
      b64Val_b64Char (a / 4) (by omega), b64Val_b64Char (a % 4 * 16 + b / 16) (by omega),
      Option.some_bind]
    rw [if_neg (b64Char_ne_pad (b % 16 * 4 + c / 64) (by omega))]
    simp only [b64Val_b64Char (b % 16 * 4 + c / 64) (by omega), Option.some_bind]
    rw [if_neg (b64Char_ne_pad (c % 64) (by omega))]
    simp only [b64Val_b64Char (c % 64) (by omega), Option.some_bind, hrest,
      Option.map_some', Option.some.injEq]
    refine List.cons_eq_cons.mpr ⟨by omega, List.cons_eq_cons.mpr ⟨by omega,
      List.cons_eq_cons.mpr ⟨by omega, rfl⟩⟩⟩

theorem base64Decode_base64Encode (bytes : List Nat) (h : ∀ b ∈ bytes, b < 256) :
    base64Decode (base64Encode bytes) = some bytes :=
  base64DecodeL_base64EncodeL bytes h

/-! ## UTF-8 encoding of a string (Rust `str::as_bytes`) -/

/-- UTF-8 encoding of one scalar value (1 to 4 bytes). -/
def utf8EncodeChar (ch : Char) : List Nat :=
  let v := ch.toNat
  if v < 128 then [v]
  else if v < 2048 then [192 + v / 64, 128 + v % 64]
  else if v < 65536 then [224 + v / 4096, 128 + v / 64 % 64, 128 + v % 64]
  else [240 + v / 262144, 128 + v / 4096 % 64, 128 + v / 64 % 64, 128 + v % 64]

/-- `str::as_bytes`: the UTF-8 byte sequence of a string. -/
def strBytes (s : String) : List Nat :=
  (s.data.map utf8EncodeChar).flatten

theorem utf8EncodeChar_lt_256 (ch : Char) : ∀ b ∈ utf8EncodeChar ch, b < 256 := by
  intro b hb
  have hv : ch.toNat < 1114112 := by
    have hvalid := ch.valid
    simp [UInt32.isValidChar, Nat.isValidChar, Char.toNat] at hvalid ⊢
    rcases hvalid with h1 | h1 <;> omega
  simp only [utf8EncodeChar] at hb
  split at hb
  · simp at hb; omega
  · split at hb
    · simp at hb; rcases hb with rfl | rfl <;> omega
    · split at hb
      · simp at hb; rcases hb with rfl | rfl | rfl <;> omega
      · simp at hb; rcases hb with rfl | rfl | rfl | rfl <;> omega

theorem strBytes_lt_256 (s : String) : ∀ b ∈ strBytes s, b < 256 := by
  intro b hb
  simp only [strBytes, List.mem_flatten] at hb
  obtain ⟨l, hl, hbl⟩ := hb
  simp only [List.mem_map] at hl
  obtain ⟨ch, _, rfl⟩ := hl
  exact utf8EncodeChar_lt_256 ch b hbl

/-! ## The k256 curve library interface (`src/crypto.rs` external collaborator)

`crypto.rs` is a thin wrapper around the k256 crate's secp256k1 ECDSA with
SHA3-256 digests.  The curve library is modelled by an interface over an
abstract scalar ring `F` (for secp256k1: `ZMod n` for the group order `n`)
acting on the point group `P`, carrying the operations `crypto.rs` calls and
the properties the crate documents (point recovery inverts x-coordinate +
recovery-id extraction; 32-byte scalar serialization round-trips; SHA3-256
digests are 32 bytes; modular inversion inverts nonzero scalars). -/

/-- k256 `RecoveryId` (a byte in `0..4`): flip the y-parity bit, as low-S
normalization does. -/
def flipRecId : Fin 4 → Fin 4
  | 0 => 1
  | 1 => 0
  | 2 => 3
  | 3 => 2

/-- `RecoveryId::from_byte`: accepts only bytes below 4. -/
def recIdFromByte (n : Nat) : Option (Fin 4) :=
  if h : n < 4 then some ⟨n, h⟩ else none

structure CurveLib (F : Type) [CommRing F] [DecidableEq F]
    (P : Type) [AddCommGroup P] [Module F P] where
  /-- The secp256k1 base point. -/
  G : P
  /-- x-coordinate of a point, reduced into the scalar ring. -/
  xcoord : P → F
  /-- The recovery id of a point (y parity and x reduction bits). -/
  recbits : P → Fin 4
  /-- Reconstruct a point from its reduced x-coordinate and recovery id. -/
  recoverPoint : F → Fin 4 → Option P
  /-- `Scalar::is_high`: is the scalar in the upper half range. -/
  isHigh : F → Bool
  /-- Modular inversion of a scalar (k256 `invert`). -/
  finv : F → F
  /-- `to_bytes`: 32-byte big-endian serialization of a scalar. -/
  toBytes : F → List Nat
  /-- 32-byte decode of an in-range nonzero scalar (`NonZeroScalar` parse). -/
  fromBytes : List Nat → Option F
  /-- SHA3-256 digest (32 bytes) of a string's UTF-8 bytes (the sha3 crate). -/
  sha3 : String → List Nat
  /-- Reduction of a 32-byte digest into the scalar ring (`bits2int`). -/
  scalarOfDigest : List Nat → F
  /-- RFC 6979 deterministic nonce from digest scalar and key. -/
  nonce : F → F → F
  /-- Hex of the uncompressed SEC1 encoding of a point
  (`to_encoded_point(false)`, 65 bytes, leading `0x04`). -/
  encodePointHex : P → String
  hrec : ∀ p : P, recoverPoint (xcoord p) (recbits p) = some p
  hrecNeg : ∀ p : P, recoverPoint (xcoord p) (flipRecId (recbits p)) = some (-p)
  hinv : ∀ x : F, x ≠ 0 → finv x * x = 1
  hfromTo : ∀ x : F, x ≠ 0 → fromBytes (toBytes x) = some x
  htoLen : ∀ x : F, (toBytes x).length = 32
  htoBytesLt : ∀ x : F, ∀ b ∈ toBytes x, b < 256
  hsha3Len : ∀ s : String, (sha3 s).length = 32
  hsha3Lt : ∀ s : String, ∀ b ∈ sha3 s, b < 256

section Crypto

variable {F : Type} [CommRing F] [DecidableEq F]
variable {P : Type} [AddCommGroup P] [Module F P]

/-- The message digest as a scalar: SHA3-256 of the message, reduced
(`crypto.rs` hashes; k256 reduces the prehash). -/
def msgScalar (L : CurveLib F P) (message : String) : F :=
  L.scalarOfDigest (L.sha3 message)

/-- k256 `SigningKey::from_slice`: exactly 32 bytes decoding to a nonzero
in-range scalar. -/
def fromSlice (L : CurveLib F P) (bytes : List Nat) : Option F :=
  if bytes.length = 32 then L.fromBytes bytes else none

/-- k256 `sign_prehash_recoverable`: RFC 6979 deterministic ECDSA producing
`(r, s, recovery_id)`, with low-S normalization. -/
def signPrehashRecoverable (L : CurveLib F P) (z d : F) : Option (F × F × Fin 4) :=
  let k := L.nonce z d
  if k = 0 then none
  else
    let R := k • L.G
    let r := L.xcoord R
    if r = 0 then none
    else
      let s := L.finv k * (z + r * d)
      if s = 0 then none
      else if L.isHigh s then some (r, -s, flipRecId (L.recbits R))
      else some (r, s, L.recbits R)

/-- k256 `VerifyingKey::recover_from_prehash`: rebuild `R` from `(r, recovery
id)` and compute `r⁻¹·(s·R − z·G)`. -/
def recoverFromPrehash (L : CurveLib F P) (z r s : F) (v : Fin 4) : Option P :=
  (L.recoverPoint r v).map fun R => L.finv r • (s • R - z • L.G)

/-- `crypto::gen_prvkey`: hex encoding of the 32 bytes of a freshly generated
signing key (the random scalar is the argument). -/
def gen_prvkey (L : CurveLib F P) (k : F) : String :=
  hexEncode (L.toBytes k)

/-- `crypto::gen_id`: decode the hex private key, derive the public point,
hex-encode its uncompressed SEC1 form, SHA3-256 that hex string, hex-encode
the digest.  The `expect` panics on malformed input are the error branches. -/
def gen_id (L : CurveLib F P) (private_key : String) : Except String String :=
  match hexDecode private_key with
  | none => .error "Invalid hex private key"
  | some bytes =>
    match fromSlice L bytes with
    | none => .error "Invalid private key"
    | some d =>
      .ok (hexEncode (L.sha3 (L.encodePointHex (d • L.G))))

/-- `crypto::gen_signature`: decode the hex key, SHA3-256 the message, sign
the digest recoverably, emit hex of `r (32 bytes) ‖ s (32 bytes) ‖ v (1
byte)`. -/
def gen_signature (L : CurveLib F P) (message private_key : String) :
    Except String String :=
  match hexDecode private_key with
  | none => .error "Invalid hex private key"
  | some bytes =>
    match fromSlice L bytes with
    | none => .error "Invalid private key"
    | some d =>
      match signPrehashRecoverable L (msgScalar L message) d with
      | none => .error "Signing failed"
      | some (r, s, v) =>
        .ok (hexEncode (L.toBytes r ++ L.toBytes s ++ [v.val]))

/-- `crypto::gen_hash`: hex of the SHA3-256 digest of the message. -/
def gen_hash (L : CurveLib F P) (message : String) : String :=
  hexEncode (L.sha3 message)

/-- `crypto::recid`: decode the hex signature, require 65 bytes, split into
`r ‖ s ‖ v`, parse the scalars (`Signature::from_slice`) and the recovery id,
recover the public point from the message digest, and hash its encoding as in
`gen_id`.  Panics (`expect`, `panic!`) are the error branches. -/
def recid (L : CurveLib F P) (message signature : String) :
    Except String String :=
  match hexDecode signature with
  | none => .error "Invalid hex signature"
  | some sig_bytes =>
    if sig_bytes.length ≠ 65 then .error "Invalid signature length"
    else
      match L.fromBytes (sig_bytes.take 32), L.fromBytes ((sig_bytes.drop 32).take 32) with
      | some r, some s =>
        match recIdFromByte (sig_bytes.getD 64 0) with
        | none => .error "Invalid recovery id"
        | some v =>
          match recoverFromPrehash L (msgScalar L message) r s v with
          | none => .error "Recovery failed"
          | some Q => .ok (hexEncode (L.sha3 (L.encodePointHex Q)))
      | _, _ => .error "Invalid signature"

/-- The ECDSA recovery computation applied to an honestly produced signature
yields the signer's public point. -/
theorem recover_point_eq (L : CurveLib F P) (z d k : F) (hk : k ≠ 0)
    (hr : L.xcoord (k • L.G) ≠ 0) :
    L.finv (L.xcoord (k • L.G)) •
      ((L.finv k * (z + L.xcoord (k • L.G) * d)) • (k • L.G) - z • L.G)
      = d • L.G := by
  set r := L.xcoord (k • L.G) with hrdef
  have hk1 : L.finv k * k = 1 := L.hinv k hk
  have hr1 : L.finv r * r = 1 := L.hinv r hr
  rw [smul_smul]
  have hmul : L.finv k * (z + r * d) * k = z + r * d := by
    calc L.finv k * (z + r * d) * k = (z + r * d) * (L.finv k * k) := by ring
    _ = z + r * d := by rw [hk1, mul_one]
  rw [hmul, ← sub_smul, add_sub_cancel_left, smul_smul, ← mul_assoc, hr1, one_mul]

/-- Core identity-recovery lemma shared by the claims: whenever
`gen_signature` succeeds, `recid` on the produced signature agrees with
`gen_id` on the key. -/
theorem recid_after_sign (L : CurveLib F P) (m key sig : String)
    (h : gen_signature L m key = .ok sig) :
    recid L m sig = gen_id L key := by
  unfold gen_signature at h
  cases hkx : hexDecode key with
  | none => rw [hkx] at h; cases h
  | some kb =>
  rw [hkx] at h
  dsimp only at h
  cases hd : fromSlice L kb with
  | none => rw [hd] at h; cases h
  | some d =>
  rw [hd] at h
  dsimp only at h
  cases hs : signPrehashRecoverable L (msgScalar L m) d with
  | none => rw [hs] at h; cases h
  | some rsv =>
  rw [hs] at h
  dsimp only at h
  obtain ⟨r, s, v⟩ := rsv
  have hsig : sig = hexEncode (L.toBytes r ++ L.toBytes s ++ [v.val]) := by
    cases h; rfl
  -- dissect the successful signing
  simp only [signPrehashRecoverable] at hs
  set z := msgScalar L m with hzdef
  set k := L.nonce z d with hkdef
  by_cases hk0 : k = 0
  · rw [if_pos hk0] at hs; cases hs
  rw [if_neg hk0] at hs
  by_cases hr0 : L.xcoord (k • L.G) = 0
  · rw [if_pos hr0] at hs; cases hs
  rw [if_neg hr0] at hs
  set s0 := L.finv k * (z + L.xcoord (k • L.G) * d) with hs0def
  by_cases hss : s0 = 0
  · rw [if_pos hss] at hs; cases hs
  rw [if_neg hss] at hs
  -- the recovered point is the public point, in both normalization branches
  have hrec_eq : ∀ rr ss vv, (rr, ss, vv) = (L.xcoord (k • L.G), s0, L.recbits (k • L.G)) ∨
      (rr, ss, vv) = (L.xcoord (k • L.G), -s0, flipRecId (L.recbits (k • L.G))) →
      recoverFromPrehash L z rr ss vv = some (d • L.G) := by
    rintro rr ss vv (hcase | hcase) <;>
      (injection hcase with h1 h23; injection h23 with h2 h3;
       subst h1; subst h2; subst h3)
    · rw [recoverFromPrehash, L.hrec (k • L.G), Option.map_some']
      exact congrArg some (recover_point_eq L z d k hk0 hr0)
    · rw [recoverFromPrehash, L.hrecNeg (k • L.G), Option.map_some', neg_smul_neg]
      exact congrArg some (recover_point_eq L z d k hk0 hr0)
  have hcases : (r, s, v) = (L.xcoord (k • L.G), s0, L.recbits (k • L.G)) ∨
      (r, s, v) = (L.xcoord (k • L.G), -s0, flipRecId (L.recbits (k • L.G))) := by
    by_cases hh : L.isHigh s0
    · rw [if_pos hh] at hs; right; exact (Option.some.injEq _ _ ▸ hs).symm
    · rw [if_neg hh] at hs; left; exact (Option.some.injEq _ _ ▸ hs).symm
  have hrne : r = L.xcoord (k • L.G) := by
    rcases hcases with hc | hc <;> exact congrArg Prod.fst hc
  have hsne : s ≠ 0 := by
    rcases hcases with hc | hc <;> have := congrArg (fun p => p.2.1) hc <;>
      simp only at this <;> rw [this]
    · exact hss
    · exact neg_ne_zero.mpr hss
  -- decode the hex signature back into the 65 bytes
  have hvlt : (v.val : Nat) < 4 := v.isLt
  have hbound : ∀ b ∈ L.toBytes r ++ L.toBytes s ++ [v.val], b < 256 := by
    intro b hb
    rcases List.mem_append.mp hb with hb1 | hb2
    · rcases List.mem_append.mp hb1 with hb1a | hb1b
      · exact L.htoBytesLt r b hb1a
      · exact L.htoBytesLt s b hb1b
    · simp only [List.mem_singleton] at hb2; omega
  have hdec : hexDecode sig = some (L.toBytes r ++ L.toBytes s ++ [v.val]) := by
    rw [hsig]; exact hexDecode_hexEncode _ hbound
  have hlen : (L.toBytes r ++ L.toBytes s ++ [v.val]).length = 65 := by
    simp [L.htoLen]
  have htk : (L.toBytes r ++ L.toBytes s ++ [v.val]).take 32 = L.toBytes r := by
    rw [List.append_assoc]; exact List.take_left' (L.htoLen r)
  have hdk : ((L.toBytes r ++ L.toBytes s ++ [v.val]).drop 32).take 32 = L.toBytes s := by
    rw [List.append_assoc, List.drop_left' (L.htoLen r)]
    exact List.take_left' (L.htoLen s)
  have hgd : (L.toBytes r ++ L.toBytes s ++ [v.val]).getD 64 0 = v.val := by
    rw [List.getD_append_right (L.toBytes r ++ L.toBytes s) [v.val] 0 64 (by simp [L.htoLen])]
    simp [L.htoLen]
  -- evaluate recid on the decoded bytes
  have hrz : r ≠ 0 := by rw [hrne]; exact hr0
  rw [recid, hdec]
  dsimp only
  rw [if_neg (not_ne_iff.mpr hlen)]
  rw [htk, hdk, hgd]
  rw [L.hfromTo r hrz, L.hfromTo s hsne]
  have hvr : recIdFromByte v.val = some v := by simp [recIdFromByte, hvlt]
  dsimp only
  rw [hvr]
  dsimp only
  rw [hrec_eq r s v hcases]
  -- and compare with gen_id
  rw [gen_id, hkx]
  dsimp only
  rw [hd]

end Crypto

instance exceptDecEq {ε α : Type} [DecidableEq ε] [DecidableEq α] :
    DecidableEq (Except ε α) := fun a b =>
  match a, b with
  | .ok x, .ok y =>
    if h : x = y then isTrue (by rw [h]) else isFalse (by simp [h])
  | .error x, .error y =>
    if h : x = y then isTrue (by rw [h]) else isFalse (by simp [h])
  | .ok _, .error _ => isFalse (by simp)
  | .error _, .ok _ => isFalse (by simp)

/-! ### A small concrete instance of the curve interface

Used to exhibit concrete witnesses: the scalar ring is `ZMod 7`, the point
group is `ZMod 7` itself with base point `1`, the x-coordinate is the
identity and SHA3 is a length-based stub.  All interface properties are
checked by `decide`. -/

def toyLib : CurveLib (ZMod 7) (ZMod 7) where
  G := 1
  xcoord := id
  recbits _ := 0
  recoverPoint r v := if v = 0 then some r else if v = 1 then some (-r) else none
  isHigh _ := false
  finv x := x ^ 5
  toBytes x := List.replicate 31 0 ++ [x.val]
  fromBytes b :=
    let n : Nat := b.foldl (fun a c => a * 256 + c) 0
    if n ≠ 0 ∧ n < 7 then some (n : ZMod 7) else none
  sha3 s := List.replicate 32 (s.length % 256)
  scalarOfDigest b := ((b.foldl (· + ·) 0 : Nat) : ZMod 7)
  nonce _ _ := 1
  encodePointHex p := hexEncode [p.val]
  hrec := by decide
  hrecNeg := by decide
  hinv := by decide
  hfromTo := by decide
  htoLen := by decide
  htoBytesLt := by decide
  hsha3Len := by intro s; simp
  hsha3Lt := by intro s b hb; simp only [List.mem_replicate] at hb; omega

/-- The toy private key `2`, hex encoded (62 zeros then `02`). -/
def toyKeyHex : String := hexEncode (List.replicate 31 0 ++ [2])

/-- The signature the toy instance produces for the empty message under
`toyKeyHex`: `r = 1`, `s = 2`, recovery id `0`. -/
def toySigHex : String :=
  hexEncode ((List.replicate 31 0 ++ [1]) ++ ((List.replicate 31 0 ++ [2]) ++ [0]))

/-! ## UTF-8 decoding (`String::from_utf8`) -/

/-- Strict UTF-8 decoding: one character per fuel unit; rejects stray
continuation bytes, overlong forms, surrogates and out-of-range values, as
Rust's `String::from_utf8` does. -/
def utf8DecodeAux : Nat → List Nat → Option (List Char)
  | _, [] => some []
  | 0, _ :: _ => none
  | fuel + 1, b :: rest =>
    if b < 128 then (utf8DecodeAux fuel rest).map (Char.ofNat b :: ·)
    else if b < 194 then none
    else if b < 224 then
      match rest with
      | c1 :: rest2 =>
        if 128 ≤ c1 ∧ c1 < 192 then
          (utf8DecodeAux fuel rest2).map (Char.ofNat ((b - 192) * 64 + (c1 - 128)) :: ·)
        else none
      | [] => none
    else if b < 240 then
      match rest with
      | c1 :: c2 :: rest2 =>
        let v := (b - 224) * 4096 + (c1 - 128) * 64 + (c2 - 128)
        if 128 ≤ c1 ∧ c1 < 192 ∧ 128 ≤ c2 ∧ c2 < 192 ∧ 2048 ≤ v ∧
            ¬(55296 ≤ v ∧ v < 57344) then
          (utf8DecodeAux fuel rest2).map (Char.ofNat v :: ·)
        else none
      | _ => none
    else if b < 245 then
      match rest with
      | c1 :: c2 :: c3 :: rest2 =>
        let v := (b - 240) * 262144 + (c1 - 128) * 4096 + (c2 - 128) * 64 + (c3 - 128)
        if 128 ≤ c1 ∧ c1 < 192 ∧ 128 ≤ c2 ∧ c2 < 192 ∧ 128 ≤ c3 ∧ c3 < 192 ∧
            65536 ≤ v ∧ v < 1114112 then
          (utf8DecodeAux fuel rest2).map (Char.ofNat v :: ·)
        else none
      | _ => none
    else none

/-- `String::from_utf8`: decode a byte vector, failing on invalid UTF-8. -/
def fromUtf8 (bytes : List Nat) : Except String String :=
  match utf8DecodeAux bytes.length bytes with
  | some cs => .ok ⟨cs⟩
  | none => .error "invalid utf-8 sequence"

theorem utf8DecodeAux_encodeChar (c : Char) (rest : List Nat) (f : Nat) :
    utf8DecodeAux (f + 1) (utf8EncodeChar c ++ rest) =
      (utf8DecodeAux f rest).map (c :: ·) := by
  have hv : c.toNat < 55296 ∨ (57343 < c.toNat ∧ c.toNat < 1114112) := by
    have hvalid := c.valid
    simp [UInt32.isValidChar, Nat.isValidChar, Char.toNat] at hvalid ⊢
    rcases hvalid with h1 | h1
    · left; omega
    · right; omega
  have hofNat : Char.ofNat c.toNat = c := Char.ofNat_toNat c
  set v := c.toNat with hvdef
  by_cases h1 : v < 128
  · simp only [utf8EncodeChar, ← hvdef, if_pos h1, List.cons_append, List.nil_append]
    rw [utf8DecodeAux.eq_def]
    dsimp only
    rw [if_pos h1, hofNat]
  by_cases h2 : v < 2048
  · simp only [utf8EncodeChar, ← hvdef, if_neg h1, if_pos h2, List.cons_append,
      List.nil_append]
    rw [utf8DecodeAux.eq_def]
    dsimp only
    rw [if_neg (by omega), if_neg (by omega), if_pos (by omega), if_pos (by omega)]
    have hcv : Char.ofNat ((192 + v / 64 - 192) * 64 + (128 + v % 64 - 128)) = c := by
      have hval : (192 + v / 64 - 192) * 64 + (128 + v % 64 - 128) = v := by omega
      rw [hval]; exact hofNat
    rw [hcv]
  by_cases h3 : v < 65536
  · have hnosur : ¬(55296 ≤ v ∧ v < 57344) := by omega
    simp only [utf8EncodeChar, ← hvdef, if_neg h1, if_neg h2, if_pos h3,
      List.cons_append, List.nil_append]
    rw [utf8DecodeAux.eq_def]
    dsimp only
    rw [if_neg (by omega), if_neg (by omega), if_neg (by omega), if_pos (by omega),
      if_pos (by omega)]
    have hcv : Char.ofNat ((224 + v / 4096 - 224) * 4096 + (128 + v / 64 % 64 - 128) * 64 +
        (128 + v % 64 - 128)) = c := by
      have hval : (224 + v / 4096 - 224) * 4096 + (128 + v / 64 % 64 - 128) * 64 +
          (128 + v % 64 - 128) = v := by omega
      rw [hval]; exact hofNat
    rw [hcv]
  · have h4 : v < 1114112 := by omega
    simp only [utf8EncodeChar, ← hvdef, if_neg h1, if_neg h2, if_neg h3,
      List.cons_append, List.nil_append]
    rw [utf8DecodeAux.eq_def]
    dsimp only
    rw [if_neg (by omega), if_neg (by omega), if_neg (by omega), if_neg (by omega),
      if_pos (by omega), if_pos (by omega)]
    have hcv : Char.ofNat ((240 + v / 262144 - 240) * 262144 +
        (128 + v / 4096 % 64 - 128) * 4096 + (128 + v / 64 % 64 - 128) * 64 +
        (128 + v % 64 - 128)) = c := by
      have hval : (240 + v / 262144 - 240) * 262144 + (128 + v / 4096 % 64 - 128) * 4096 +
          (128 + v / 64 % 64 - 128) * 64 + (128 + v % 64 - 128) = v := by omega
      rw [hval]; exact hofNat
    rw [hcv]

theorem utf8DecodeAux_encodeList (cs : List Char) :
    ∀ f : Nat, cs.length ≤ f →
      utf8DecodeAux f ((cs.map utf8EncodeChar).flatten) = some cs := by
  induction cs with
  | nil => intro f _; cases f <;> rfl
  | cons c rest ih =>
    intro f hf
    cases f with
    | zero => simp at hf
    | succ f =>
      simp only [List.map_cons, List.flatten_cons]
      rw [utf8DecodeAux_encodeChar c _ f]
      rw [ih f (by simpa using Nat.lt_succ_iff.mp (Nat.lt_of_lt_of_le (Nat.lt_succ_self _) hf))]
      rfl

theorem strBytes_length_ge (s : String) : s.data.length ≤ (strBytes s).length := by
  show s.data.length ≤ ((s.data.map utf8EncodeChar).flatten).length
  induction s.data with
  | nil => simp
  | cons c rest ih =>
    simp only [List.map_cons, List.flatten_cons, List.length_append, List.length_cons]
    have hc : 1 ≤ (utf8EncodeChar c).length := by
      simp only [utf8EncodeChar]
      split
      · simp
      split
      · simp
      split <;> simp
    omega

/-- Decoding the UTF-8 bytes of a string gives the string back: Rust's
`String::from_utf8(s.as_bytes().to_vec()) == Ok(s)`. -/
theorem fromUtf8_strBytes (s : String) : fromUtf8 (strBytes s) = .ok s := by
  unfold fromUtf8 strBytes
  rw [utf8DecodeAux_encodeList s.data _ (by simpa [strBytes] using strBytes_length_ge s)]

/-! ## The RPC layer (`src/rpc.rs`) -/

/-- `rpc::RPCError`: an error message with a connection-class flag. -/
structure RPCError where
  details : String
  connection_error : Bool
deriving DecidableEq

/-- `RPCError::new`. -/
def RPCError.new (msg : String) (connection_error : Bool) : RPCError :=
  { details := msg, connection_error := connection_error }

/-- `RPCError::conn_err`. -/
def RPCError.conn_err (e : RPCError) : Bool :=
  e.connection_error

/-- `rpc::RPCMsg`: the signed request envelope. -/
structure RPCMsg where
  signature : String
  payloadtype : String
  payload : String
deriving DecidableEq

/-- `rpc::RPCReplyMsg`: the reply envelope. -/
structure RPCReplyMsg where
  payloadtype : String
  payload : String
  error : Bool
deriving DecidableEq

/-- `core::Failure`. -/
structure Failure where
  status : Int
  message : String
deriving DecidableEq

/-- `core::ChannelEntry`. -/
structure ChannelEntry where
  sequence : Int
  payload : String
  msgtype : String
  inreplyto : Int
  timestamp : String
  senderid : String
deriving DecidableEq

/-- The serde_json parsers the RPC layer invokes on reply bodies
(`serde_json::from_str` at `RPCReplyMsg`, `Failure` and `Vec<ChannelEntry>`).
JSON parsing of arbitrary text is external; each parser returns either the
parsed value or serde's error text. -/
structure WireCodec where
  parseReply : String → Except String RPCReplyMsg
  parseFailure : String → Except String Failure
  parseEntries : String → Except String (List ChannelEntry)

/-- `rpc::compose_rpcmsg`: base64-encode the payload's bytes, sign the
base64 text with the private key, and assemble the envelope.  The signing
panic on a malformed key is the error branch. -/
def compose_rpcmsg {F : Type} [CommRing F] [DecidableEq F]
    {P : Type} [AddCommGroup P] [Module F P] (L : CurveLib F P)
    (payloadtype payload prvkey : String) : Except String RPCMsg :=
  let payload_base64 := base64Encode (strBytes payload)
  match gen_signature L payload_base64 prvkey with
  | .error e => .error e
  | .ok signature =>
    .ok { payload := payload_base64, payloadtype := payloadtype,
          signature := signature }

/-- The observable outcome of the HTTP POST in `send_rpcmsg`: a status code
and the result of reading the body text (`res.status()`, `res.text()`). -/
structure HttpResponse where
  status : Nat
  text : Except String String

/-- `rpc::send_rpcmsg`, as a function of the transport outcome: a transport
failure before any response is connection-class; afterwards the body is
parsed as a reply envelope, its payload base64-decoded and UTF-8-checked, and
a non-200 status is turned into an application-class error carrying the
decoded `Failure.message`.  (The source interpolates the library error values
into some messages; the static message prefixes are kept.) -/
def send_rpcmsg (W : WireCodec) (res : Except String HttpResponse) :
    Except RPCError String :=
  match res with
  | .error err => .error (RPCError.new err true)
  | .ok res =>
    let status := res.status
    match res.text with
    | .error err => .error (RPCError.new err false)
    | .ok body =>
      match W.parseReply body with
      | .error e =>
        .error (RPCError.new ("Failed to parse response: " ++ e ++ " - body: " ++ body) false)
      | .ok rpc_reply =>
        match base64Decode rpc_reply.payload with
        | none => .error (RPCError.new "Failed to decode payload" false)
        | some buf =>
          match fromUtf8 buf with
          | .error e => .error (RPCError.new ("Invalid UTF-8 in payload: " ++ e) false)
          | .ok s =>
            if status ≠ 200 then
              match W.parseFailure s with
              | .error e =>
                .error (RPCError.new ("Failed to parse error: " ++ e ++ " - body: " ++ s) false)
              | .ok failure => .error (RPCError.new failure.message false)
            else .ok s

/-! ### `get_ws_url` and Rust `str::replace` -/

/-- Rust `str::replace`: replace every non-overlapping occurrence of `pat`,
scanning left to right.  Fuel-based recursion; one unit of fuel per consumed
character, so `s.length` fuel always suffices (`pat` is nonempty at every
call site). -/
def replaceAllAux (pat rep : List Char) : Nat → List Char → List Char
  | 0, s => s
  | fuel + 1, s =>
    if pat.isPrefixOf s ∧ pat ≠ [] then
      rep ++ replaceAllAux pat rep fuel (s.drop pat.length)
    else
      match s with
      | [] => []
      | c :: rest => c :: replaceAllAux pat rep fuel rest

def replaceAll (s pat rep : String) : String :=
  ⟨replaceAllAux pat.data rep.data s.data.length s.data⟩

/-- `rpc::get_ws_url`, as a function of the configured server URL (the
source reads it from the process-wide configuration): swap the scheme
(`https`→`wss`, otherwise `http`→`ws`) and replace `/api` with `/pubsub`. -/
def get_ws_url (http_url : String) : String :=
  let ws_url := if "https://".data.isPrefixOf http_url.data then
      replaceAll http_url "https://" "wss://"
    else
      replaceAll http_url "http://" "ws://"
  replaceAll ws_url "/api" "/pubsub"

theorem isPrefixOf_append_self (p t : List Char) : p.isPrefixOf (p ++ t) = true := by
  induction p with
  | nil => simp [List.isPrefixOf]
  | cons c ps ih => simp [List.isPrefixOf, ih]

theorem replaceAllAux_nil (pat rep : List Char) (f : Nat) :
    replaceAllAux pat rep f [] = [] := by
  cases f with
  | zero => rfl
  | succ f =>
    rw [replaceAllAux.eq_def]
    dsimp only
    cases pat with
    | nil => simp
    | cons c ps => simp [List.isPrefixOf]

/-- Consuming a leading occurrence of the (nonempty) pattern. -/
theorem replaceAllAux_cons_pat (pat rep rest : List Char) (f : Nat) (hne : pat ≠ []) :
    replaceAllAux pat rep (f + 1) (pat ++ rest) =
      rep ++ replaceAllAux pat rep f rest := by
  rw [replaceAllAux.eq_def]
  dsimp only
  rw [if_pos ⟨isPrefixOf_append_self pat rest, hne⟩, List.drop_left]

/-- A string with no occurrence of the pattern anywhere is left unchanged
(for any amount of fuel). -/
theorem replaceAllAux_no_occ (pat rep : List Char) :
    ∀ f s, (∀ i, pat.isPrefixOf (s.drop i) = false) →
      replaceAllAux pat rep f s = s := by
  intro f
  induction f with
  | zero => intro s _; rfl
  | succ f ih =>
    intro s hno
    rw [replaceAllAux.eq_def]
    dsimp only
    have h0 := hno 0
    rw [List.drop_zero] at h0
    rw [if_neg (by simp [h0])]
    cases s with
    | nil => rfl
    | cons c rest =>
      dsimp only
      have hrec : replaceAllAux pat rep f rest = rest :=
        ih rest (fun i => by have hi := hno (i + 1); rwa [List.drop_succ_cons] at hi)
      rw [hrec]

/-- A Boolean-prefix implies a count inequality, used to rule out scheme
occurrences past the start of the URL. -/
theorem count_le_of_isPrefixOf (x : Char) :
    ∀ (p t : List Char), p.isPrefixOf t = true → p.count x ≤ t.count x := by
  intro p
  induction p with
  | nil => intro t _; simp
  | cons c ps ih =>
    intro t hpre
    cases t with
    | nil => simp [List.isPrefixOf] at hpre
    | cons d ts =>
      simp only [List.isPrefixOf, Bool.and_eq_true, beq_iff_eq] at hpre
      obtain ⟨rfl, hpre⟩ := hpre
      have := ih ts hpre
      by_cases hx : c = x <;> simp [List.count_cons, hx] <;> omega

/-- Scanning a prefix in which the pattern never matches, followed by one
final occurrence of the pattern. -/
theorem replaceAllAux_scan (pat rep : List Char) (hne : pat ≠ []) :
    ∀ pre f, pre.length + pat.length ≤ f →
      (∀ i, i < pre.length → pat.isPrefixOf ((pre ++ pat).drop i) = false) →
      replaceAllAux pat rep f (pre ++ pat) = pre ++ rep := by
  intro pre
  induction pre with
  | nil =>
    intro f hf _
    simp only [List.nil_append]
    obtain ⟨f', rfl⟩ : ∃ f', f = f' + 1 := by
      cases f with
      | zero =>
        exfalso
        have hp0 : pat.length = 0 := by simpa using hf
        exact hne (List.length_eq_zero.mp hp0)
      | succ f' => exact ⟨f', rfl⟩
    have hself : pat.isPrefixOf pat = true := by
      have := isPrefixOf_append_self pat []
      rwa [List.append_nil] at this
    rw [replaceAllAux.eq_def]
    dsimp only
    rw [if_pos ⟨hself, hne⟩, List.drop_length, replaceAllAux_nil, List.append_nil]
  | cons c pre' ih =>
    intro f hf hno
    obtain ⟨f', rfl⟩ : ∃ f', f = f' + 1 := by
      cases f with
      | zero =>
        exfalso
        have := List.length_pos.mpr hne
        simp only [List.length_cons, Nat.le_zero] at hf
        omega
      | succ f' => exact ⟨f', rfl⟩
    rw [replaceAllAux.eq_def]
    simp only [List.cons_append]
    have h0 := hno 0 (by simp)
    rw [List.drop_zero, List.cons_append] at h0
    rw [if_neg (by simp [h0])]
    rw [ih f' (by simp only [List.length_cons] at hf; omega)
      (fun i hi => by
        have hx := hno (i + 1) (by simp only [List.length_cons]; omega)
        rwa [List.cons_append, List.drop_succ_cons] at hx)]

theorem no_occ_of_count (pat rest : List Char) (x : Char)
    (hc : rest.count x < pat.count x) :
    ∀ i, pat.isPrefixOf (rest.drop i) = false := by
  intro i
  cases hb : pat.isPrefixOf (rest.drop i) with
  | false => rfl
  | true =>
    exfalso
    have h2 := count_le_of_isPrefixOf x pat _ hb
    have h3 : (rest.drop i).count x ≤ rest.count x :=
      (List.drop_sublist i rest).count_le x
    omega

/-- `"api"` is not a prefix of `hp ++ "/api"` when it is not a prefix of
`hp` itself (the appended text starts with a slash). -/
theorem api_not_prefix_append (hp : List Char)
    (h2 : (['a', 'p', 'i'].isPrefixOf hp) = false) :
    (['a', 'p', 'i'].isPrefixOf (hp ++ ['/', 'a', 'p', 'i'])) = false := by
  match hp with
  | [] => decide
  | [c1] => simp [List.isPrefixOf]
  | [c1, c2] => simp [List.isPrefixOf]
  | c1 :: c2 :: c3 :: t =>
    simp only [List.isPrefixOf, List.cons_append, Bool.and_eq_true] at h2 ⊢
    simpa using h2

/-- The position-by-position no-match conditions for scanning
`ws ++ hp ++ "/api"` for `"/api"`, when `ws` is the 5-character `ws://`
scheme, `hp` is slash-free and does not start with `api`. -/
theorem scan_cond_ws (hp : List Char) (h1 : ∀ c ∈ hp, c ≠ '/')
    (h2 : (['a', 'p', 'i'].isPrefixOf hp) = false) :
    ∀ i, i < (['w', 's', ':', '/', '/'] ++ hp).length →
      (['/', 'a', 'p', 'i'].isPrefixOf
        (((['w', 's', ':', '/', '/'] ++ hp) ++ ['/', 'a', 'p', 'i']).drop i)) = false := by
  intro i hi
  rw [List.append_assoc]
  rcases i with _ | _ | _ | _ | _ | j
  · simp [List.isPrefixOf]
  · simp [List.isPrefixOf]
  · simp [List.isPrefixOf]
  · simp [List.isPrefixOf]
  · -- position 4: the suffix is `/` followed by `hp ++ /api`
    simp only [List.cons_append, List.nil_append, List.drop_succ_cons, List.drop_zero]
    simp only [List.isPrefixOf, Bool.and_eq_false_iff]
    right
    exact api_not_prefix_append hp h2
  · -- positions inside `hp`
    simp only [List.length_append, List.length_cons] at hi
    have hj : j < hp.length := by simp at hi; omega
    have hdrop : ((['w', 's', ':', '/', '/'] : List Char) ++
        (hp ++ ['/', 'a', 'p', 'i'])).drop (j + 5) =
        hp.drop j ++ ['/', 'a', 'p', 'i'] := by
      rw [show j + 5 = (['w', 's', ':', '/', '/'] : List Char).length + j by simp; omega,
        List.drop_append, List.drop_append_of_le_length (by omega)]
    rw [show j + 1 + 1 + 1 + 1 + 1 = j + 5 by omega, hdrop]
    have hne : hp.drop j ≠ [] := by
      simp only [ne_eq, List.drop_eq_nil_iff, not_le]
      omega
    obtain ⟨c0, t0, hct⟩ := List.exists_cons_of_ne_nil hne
    have hc0 : c0 ∈ hp := List.drop_subset j hp (hct ▸ List.mem_cons_self c0 t0)
    rw [hct, List.cons_append]
    simp [List.isPrefixOf, Ne.symm (h1 c0 hc0)]

/-- Same conditions for the 6-character `wss://` scheme. -/
theorem scan_cond_wss (hp : List Char) (h1 : ∀ c ∈ hp, c ≠ '/')
    (h2 : (['a', 'p', 'i'].isPrefixOf hp) = false) :
    ∀ i, i < (['w', 's', 's', ':', '/', '/'] ++ hp).length →
      (['/', 'a', 'p', 'i'].isPrefixOf
        (((['w', 's', 's', ':', '/', '/'] ++ hp) ++ ['/', 'a', 'p', 'i']).drop i)) = false := by
  intro i hi
  rw [List.append_assoc]
  rcases i with _ | _ | _ | _ | _ | _ | j
  · simp [List.isPrefixOf]
  · simp [List.isPrefixOf]
  · simp [List.isPrefixOf]
  · simp [List.isPrefixOf]
  · simp [List.isPrefixOf]
  · simp only [List.cons_append, List.nil_append, List.drop_succ_cons, List.drop_zero]
    simp only [List.isPrefixOf, Bool.and_eq_false_iff]
    right
    exact api_not_prefix_append hp h2
  · simp only [List.length_append, List.length_cons] at hi
    have hj : j < hp.length := by simp at hi; omega
    have hdrop : ((['w', 's', 's', ':', '/', '/'] : List Char) ++
        (hp ++ ['/', 'a', 'p', 'i'])).drop (j + 6) =
        hp.drop j ++ ['/', 'a', 'p', 'i'] := by
      rw [show j + 6 = (['w', 's', 's', ':', '/', '/'] : List Char).length + j by simp; omega,
        List.drop_append, List.drop_append_of_le_length (by omega)]
    rw [show j + 1 + 1 + 1 + 1 + 1 + 1 = j + 6 by omega, hdrop]
    have hne : hp.drop j ≠ [] := by
      simp only [ne_eq, List.drop_eq_nil_iff, not_le]
      omega
    obtain ⟨c0, t0, hct⟩ := List.exists_cons_of_ne_nil hne
    have hc0 : c0 ∈ hp := List.drop_subset j hp (hct ▸ List.mem_cons_self c0 t0)
    rw [hct, List.cons_append]
    simp [List.isPrefixOf, Ne.symm (h1 c0 hc0)]

/-- `get_ws_url` on an http URL whose host-port part is slash-free and does
not start with `api`: scheme mapped to `ws`, `/api` mapped to `/pubsub`,
host and port unchanged. -/
theorem get_ws_url_http (hp : String) (h1 : ∀ c ∈ hp.data, c ≠ '/')
    (h2 : (['a', 'p', 'i'].isPrefixOf hp.data) = false) :
    get_ws_url ("http://" ++ hp ++ "/api") = "ws://" ++ hp ++ "/pubsub" := by
  have hdata : ("http://" ++ hp ++ "/api").data
      = ['h', 't', 't', 'p', ':', '/', '/'] ++ (hp.data ++ ['/', 'a', 'p', 'i']) := by
    rw [String.data_append, String.data_append, List.append_assoc]
  have hhp0 : hp.data.count '/' = 0 :=
    List.count_eq_zero.mpr (fun hmem => h1 '/' hmem rfl)
  have hcount : (hp.data ++ ['/', 'a', 'p', 'i']).count '/'
      < (['h', 't', 't', 'p', ':', '/', '/'] : List Char).count '/' := by
    rw [List.count_append, hhp0]
    decide
  have hcond : ("https://".data.isPrefixOf ("http://" ++ hp ++ "/api").data) = false := by
    rw [hdata]
    simp [List.isPrefixOf]
  have hstage1 : replaceAll ("http://" ++ hp ++ "/api") "http://" "ws://"
      = ⟨['w', 's', ':', '/', '/'] ++ (hp.data ++ ['/', 'a', 'p', 'i'])⟩ := by
    unfold replaceAll
    rw [hdata]
    congr 1
    have hlen : ((['h', 't', 't', 'p', ':', '/', '/'] : List Char) ++
        (hp.data ++ ['/', 'a', 'p', 'i'])).length
        = ((hp.data ++ ['/', 'a', 'p', 'i']).length + 6) + 1 := by
      simp only [List.length_append, List.length_cons, List.length_nil]
      omega
    rw [hlen]
    rw [show "http://".data = ['h', 't', 't', 'p', ':', '/', '/'] from rfl,
      show "ws://".data = ['w', 's', ':', '/', '/'] from rfl]
    rw [replaceAllAux_cons_pat _ _ _ _ (by decide)]
    rw [replaceAllAux_no_occ _ _ _ _ (no_occ_of_count _ _ '/' hcount)]
  have hstage2 : replaceAll ⟨['w', 's', ':', '/', '/'] ++ (hp.data ++ ['/', 'a', 'p', 'i'])⟩
      "/api" "/pubsub"
      = ⟨(['w', 's', ':', '/', '/'] ++ hp.data) ++ ['/', 'p', 'u', 'b', 's', 'u', 'b']⟩ := by
    unfold replaceAll
    congr 1
    rw [show "/api".data = ['/', 'a', 'p', 'i'] from rfl,
      show "/pubsub".data = ['/', 'p', 'u', 'b', 's', 'u', 'b'] from rfl]
    rw [show (String.mk (['w', 's', ':', '/', '/'] ++ (hp.data ++ ['/', 'a', 'p', 'i']))).data
      = (['w', 's', ':', '/', '/'] ++ hp.data) ++ ['/', 'a', 'p', 'i'] from
      (List.append_assoc _ _ _).symm]
    rw [show ((['w', 's', ':', '/', '/'] ++ hp.data) ++ ['/', 'a', 'p', 'i']).length
      = (['w', 's', ':', '/', '/'] ++ hp.data).length + (['/', 'a', 'p', 'i'] : List Char).length
      from List.length_append _ _]
    exact replaceAllAux_scan _ _ (by decide) _ _ (le_refl _) (scan_cond_ws hp.data h1 h2)
  unfold get_ws_url
  simp only [hcond, Bool.false_eq_true, if_false]
  rw [hstage1, hstage2]
  rfl

/-- `get_ws_url` on an https URL: scheme mapped to `wss`. -/
theorem get_ws_url_https (hp : String) (h1 : ∀ c ∈ hp.data, c ≠ '/')
    (h2 : (['a', 'p', 'i'].isPrefixOf hp.data) = false) :
    get_ws_url ("https://" ++ hp ++ "/api") = "wss://" ++ hp ++ "/pubsub" := by
  have hdata : ("https://" ++ hp ++ "/api").data
      = ['h', 't', 't', 'p', 's', ':', '/', '/'] ++ (hp.data ++ ['/', 'a', 'p', 'i']) := by
    rw [String.data_append, String.data_append, List.append_assoc]
  have hhp0 : hp.data.count '/' = 0 :=
    List.count_eq_zero.mpr (fun hmem => h1 '/' hmem rfl)
  have hcond : ("https://".data.isPrefixOf ("https://" ++ hp ++ "/api").data) = true := by
    rw [hdata]
    exact isPrefixOf_append_self _ _
  have hstage1 : replaceAll ("https://" ++ hp ++ "/api") "https://" "wss://"
      = ⟨['w', 's', 's', ':', '/', '/'] ++ (hp.data ++ ['/', 'a', 'p', 'i'])⟩ := by
    unfold replaceAll
    rw [hdata]
    congr 1
    have hlen : ((['h', 't', 't', 'p', 's', ':', '/', '/'] : List Char) ++
        (hp.data ++ ['/', 'a', 'p', 'i'])).length
        = ((hp.data ++ ['/', 'a', 'p', 'i']).length + 7) + 1 := by
      simp only [List.length_append, List.length_cons, List.length_nil]
      omega
    rw [hlen]
    rw [show "https://".data = ['h', 't', 't', 'p', 's', ':', '/', '/'] from rfl,
      show "wss://".data = ['w', 's', 's', ':', '/', '/'] from rfl]
    rw [replaceAllAux_cons_pat _ _ _ _ (by decide)]
    have hcount : (hp.data ++ ['/', 'a', 'p', 'i']).count '/'
        < (['h', 't', 't', 'p', 's', ':', '/', '/'] : List Char).count '/' := by
      rw [List.count_append, hhp0]
      decide
    rw [replaceAllAux_no_occ _ _ _ _ (no_occ_of_count _ _ '/' hcount)]
  have hstage2 : replaceAll
      ⟨['w', 's', 's', ':', '/', '/'] ++ (hp.data ++ ['/', 'a', 'p', 'i'])⟩
      "/api" "/pubsub"
      = ⟨(['w', 's', 's', ':', '/', '/'] ++ hp.data) ++
          ['/', 'p', 'u', 'b', 's', 'u', 'b']⟩ := by
    unfold replaceAll
    congr 1
    rw [show "/api".data = ['/', 'a', 'p', 'i'] from rfl,
      show "/pubsub".data = ['/', 'p', 'u', 'b', 's', 'u', 'b'] from rfl]
    rw [show (String.mk (['w', 's', 's', ':', '/', '/'] ++
        (hp.data ++ ['/', 'a', 'p', 'i']))).data
      = (['w', 's', 's', ':', '/', '/'] ++ hp.data) ++ ['/', 'a', 'p', 'i'] from
      (List.append_assoc _ _ _).symm]
    rw [show ((['w', 's', 's', ':', '/', '/'] ++ hp.data) ++ ['/', 'a', 'p', 'i']).length
      = (['w', 's', 's', ':', '/', '/'] ++ hp.data).length +
        (['/', 'a', 'p', 'i'] : List Char).length
      from List.length_append _ _]
    exact replaceAllAux_scan _ _ (by decide) _ _ (le_refl _) (scan_cond_wss hp.data h1 h2)
  unfold get_ws_url
  simp only [hcond, if_true]
  rw [hstage1, hstage2]
  rfl

/-! ### The streaming subscription loop (`send_ws_subscribe_channel`) -/

/-- One inbound tungstenite frame, as the loop distinguishes them. -/
inductive WsFrame
  | text (t : String)
  | close
  | other
deriving DecidableEq

/-- One iteration's outcome of `timeout(client_timeout, read.next())`:
a frame, a socket error, end of stream (`Ok(None)`), or expiry of the
client-side timeout (`Err(_)`). -/
inductive ReadEvent
  | frame (m : WsFrame)
  | sockErr (e : String)
  | streamEnd
  | timedOut
deriving DecidableEq

/-- The read loop of `send_ws_subscribe_channel` over the inbound event
sequence.  The `FnMut` consumer is threaded as explicit state
`cb : σ → batch → σ × Bool`.  `none` models the source's `unwrap`/`expect`
panics on an undecodable payload inside a received frame. -/
def wsLoop {σ : Type} (W : WireCodec) (cb : σ → List ChannelEntry → σ × Bool) :
    σ → List ChannelEntry → List ReadEvent →
    Option (Except RPCError (List ChannelEntry))
  | _, acc, [] => some (.ok acc)
  | st, acc, e :: rest =>
    match e with
    | .timedOut => some (.ok acc)
    | .streamEnd => some (.ok acc)
    | .sockErr err => some (.error (RPCError.new ("WebSocket error: " ++ err) true))
    | .frame .close => some (.ok acc)
    | .frame .other => wsLoop W cb st acc rest
    | .frame (.text t) =>
      match W.parseReply t with
      | .error e =>
        some (.error (RPCError.new ("Failed to parse WebSocket response: " ++ e) false))
      | .ok rpc_reply =>
        if rpc_reply.error then
          match base64Decode rpc_reply.payload with
          | none => none
          | some buf =>
            match fromUtf8 buf with
            | .error _ => none
            | .ok s =>
              match W.parseFailure s with
              | .error _ => none
              | .ok failure => some (.error (RPCError.new failure.message false))
        else
          match base64Decode rpc_reply.payload with
          | none => none
          | some buf =>
            match fromUtf8 buf with
            | .error _ => none
            | .ok s =>
              let entries := match W.parseEntries s with
                | .ok es => es
                | .error _ => []
              if entries.isEmpty then some (.ok acc)
              else
                let acc2 := acc ++ entries
                let next := cb st entries
                if next.2 then wsLoop W cb next.1 acc2 rest
                else some (.ok acc2)

/-- The connection and send phases preceding the read loop: a connect
timeout, a failed handshake and a failed send are connection-class errors;
an opened session runs the loop on its inbound events with an empty
accumulator. -/
inductive WsSetup
  | connectTimeout
  | connectFailed (e : String)
  | sendFailed (e : String)
  | opened (events : List ReadEvent)

/-- `rpc::send_ws_subscribe_channel`, as a function of the session's
transport behaviour. -/
def send_ws_subscribe_channel {σ : Type} (W : WireCodec)
    (cb : σ → List ChannelEntry → σ × Bool) (st0 : σ) (setup : WsSetup) :
    Option (Except RPCError (List ChannelEntry)) :=
  match setup with
  | .connectTimeout => some (.error (RPCError.new "WebSocket connection timed out" true))
  | .connectFailed e =>
    some (.error (RPCError.new ("WebSocket connection failed: " ++ e) true))
  | .sendFailed e => some (.error (RPCError.new ("WebSocket send failed: " ++ e) true))
  | .opened events => wsLoop W cb st0 [] events

/-! ### Concrete witness material -/

/-- The failure body used in witnesses, as the server would send it. -/
def failureJson : String := "\x7b\"status\":400,\"message\":\"bad request\"\x7d"

def entriesJson1 : String :=
  "[\x7b\"sequence\":1,\"payload\":\"AQ==\",\"type\":\"data\"\x7d]"

def entriesJson2 : String :=
  "[\x7b\"sequence\":2,\"payload\":\"Ag==\",\"type\":\"data\"\x7d]"

def emptyEntriesJson : String := "[]"

def entry1 : ChannelEntry :=
  { sequence := 1, payload := "AQ==", msgtype := "data", inreplyto := 0,
    timestamp := "", senderid := "" }

def entry2 : ChannelEntry :=
  { sequence := 2, payload := "Ag==", msgtype := "data", inreplyto := 0,
    timestamp := "", senderid := "" }

/-- An HTTP body whose envelope has `error:true`. -/
def bodyErrTrue : String :=
  "\x7b\"payloadtype\":\"error\",\"payload\":\"" ++
    base64Encode (strBytes failureJson) ++ "\",\"error\":true\x7d"

/-- Streamed text frames used in witnesses. -/
def wsText1 : String :=
  "\x7b\"payloadtype\":\"subscribechannelmsg\",\"payload\":\"" ++
    base64Encode (strBytes entriesJson1) ++ "\",\"error\":false\x7d"

def wsText2 : String :=
  "\x7b\"payloadtype\":\"subscribechannelmsg\",\"payload\":\"" ++
    base64Encode (strBytes entriesJson2) ++ "\",\"error\":false\x7d"

def wsTextEmpty : String :=
  "\x7b\"payloadtype\":\"subscribechannelmsg\",\"payload\":\"" ++
    base64Encode (strBytes emptyEntriesJson) ++ "\",\"error\":false\x7d"

def wsTextErr : String :=
  "\x7b\"payloadtype\":\"error\",\"payload\":\"" ++
    base64Encode (strBytes failureJson) ++ "\",\"error\":true\x7d"

/-- A concrete serde model giving the JSON bodies above their parses. -/
def toyCodec : WireCodec where
  parseReply s :=
    if s = bodyErrTrue then
      .ok { payloadtype := "error", payload := base64Encode (strBytes failureJson),
            error := true }
    else if s = wsText1 then
      .ok { payloadtype := "subscribechannelmsg",
            payload := base64Encode (strBytes entriesJson1), error := false }
    else if s = wsText2 then
      .ok { payloadtype := "subscribechannelmsg",
            payload := base64Encode (strBytes entriesJson2), error := false }
    else if s = wsTextEmpty then
      .ok { payloadtype := "subscribechannelmsg",
            payload := base64Encode (strBytes emptyEntriesJson), error := false }
    else if s = wsTextErr then
      .ok { payloadtype := "error", payload := base64Encode (strBytes failureJson),
            error := true }
    else .error "expected value"
  parseFailure s :=
    if s = failureJson then .ok { status := 400, message := "bad request" }
    else .error "expected failure"
  parseEntries s :=
    if s = entriesJson1 then .ok [entry1]
    else if s = entriesJson2 then .ok [entry2]
    else if s = emptyEntriesJson then .ok []
    else .error "expected entries"

/-! ## Shape lemmas -/

section Shapes

variable {F : Type} [CommRing F] [DecidableEq F]
variable {P : Type} [AddCommGroup P] [Module F P]

theorem gen_id_ok_shape (L : CurveLib F P) (key i : String)
    (h : gen_id L key = .ok i) :
    ∃ d : F, i = hexEncode (L.sha3 (L.encodePointHex (d • L.G))) := by
  unfold gen_id at h
  cases hk : hexDecode key with
  | none => rw [hk] at h; cases h
  | some kb =>
    rw [hk] at h
    dsimp only at h
    cases hd : fromSlice L kb with
    | none => rw [hd] at h; cases h
    | some d =>
      rw [hd] at h
      dsimp only at h
      exact ⟨d, by cases h; rfl⟩

theorem gen_signature_ok_shape (L : CurveLib F P) (m key sig : String)
    (h : gen_signature L m key = .ok sig) :
    ∃ r s : F, ∃ v : Fin 4,
      sig = hexEncode (L.toBytes r ++ L.toBytes s ++ [v.val]) := by
  unfold gen_signature at h
  cases hk : hexDecode key with
  | none => rw [hk] at h; cases h
  | some kb =>
    rw [hk] at h
    dsimp only at h
    cases hd : fromSlice L kb with
    | none => rw [hd] at h; cases h
    | some d =>
      rw [hd] at h
      dsimp only at h
      cases hs : signPrehashRecoverable L (msgScalar L m) d with
      | none => rw [hs] at h; cases h
      | some rsv =>
        rw [hs] at h
        obtain ⟨r, s, v⟩ := rsv
        dsimp only at h
        exact ⟨r, s, v, by cases h; rfl⟩

end Shapes

/-! ## The claims -/

/-- **C2**: for every curve-library instance, every message `m` and every
valid private key (one the signing path accepts): recovering the identity
from the message and the produced signature yields exactly the identity
derived directly from the key — if `gen_signature m k = ok sig` then
`recid m sig = gen_id k`. -/
theorem C2_recover_identity {F : Type} [CommRing F] [DecidableEq F]
    {P : Type} [AddCommGroup P] [Module F P] (L : CurveLib F P)
    (m key sig : String) (h : gen_signature L m key = .ok sig) :
    recid L m sig = gen_id L key :=
  recid_after_sign L m key sig h

theorem C2_recover_identity_witness :
    gen_signature toyLib "" toyKeyHex = .ok toySigHex ∧
    recid toyLib "" toySigHex = gen_id toyLib toyKeyHex :=
  ⟨by decide, C2_recover_identity toyLib "" toyKeyHex toySigHex (by decide)⟩

/-- **C3**: `compose_rpcmsg t p k` builds an envelope whose `payloadtype` is
`t`, whose `payload` is the base64 encoding of `p`'s bytes, and whose
`signature` signs the base64 text itself; base64-decoding the payload
recovers exactly `p`'s bytes (and UTF-8 decoding them recovers `p`), and
`recid` over `(payload, signature)` yields the composer's identity. -/
theorem C3_compose_envelope {F : Type} [CommRing F] [DecidableEq F]
    {P : Type} [AddCommGroup P] [Module F P] (L : CurveLib F P)
    (t p k : String) (env : RPCMsg)
    (h : compose_rpcmsg L t p k = .ok env) :
    env.payloadtype = t ∧
    env.payload = base64Encode (strBytes p) ∧
    gen_signature L (base64Encode (strBytes p)) k = .ok env.signature ∧
    base64Decode env.payload = some (strBytes p) ∧
    fromUtf8 (strBytes p) = .ok p ∧
    recid L env.payload env.signature = gen_id L k := by
  unfold compose_rpcmsg at h
  dsimp only at h
  cases hg : gen_signature L (base64Encode (strBytes p)) k with
  | error e => rw [hg] at h; cases h
  | ok sg =>
    rw [hg] at h
    dsimp only at h
    cases h
    refine ⟨rfl, rfl, rfl, ?_, fromUtf8_strBytes p, ?_⟩
    · exact base64Decode_base64Encode _ (strBytes_lt_256 p)
    · exact recid_after_sign L _ k sg hg

def toyPayloadB64 : String := base64Encode (strBytes "payload")

def toyEnv : RPCMsg :=
  { signature := hexEncode ((List.replicate 31 0 ++ [1]) ++
      ((List.replicate 31 0 ++ [1]) ++ [0])),
    payloadtype := "addcolonymsg", payload := toyPayloadB64 }

theorem C3_compose_envelope_witness :
    compose_rpcmsg toyLib "addcolonymsg" "payload" toyKeyHex = .ok toyEnv ∧
    (toyEnv.payload = base64Encode (strBytes "payload") ∧
      recid toyLib toyEnv.payload toyEnv.signature = gen_id toyLib toyKeyHex) := by
  have h := C3_compose_envelope toyLib "addcolonymsg" "payload" toyKeyHex toyEnv (by decide)
  exact ⟨by decide, h.2.1, h.2.2.2.2.2⟩

/-- **C9**: fixed-width outputs — `gen_prvkey` and `gen_id` yield 64
hex characters, `gen_hash` yields 64 hex characters, and `gen_signature`
yields 130 hex characters (32-byte `r` + 32-byte `s` + 1-byte recovery
indicator, hex encoded). -/
theorem C9_fixed_widths {F : Type} [CommRing F] [DecidableEq F]
    {P : Type} [AddCommGroup P] [Module F P] (L : CurveLib F P)
    (k : F) (m key : String) :
    ((gen_prvkey L k).length = 64 ∧
      ∀ c ∈ (gen_prvkey L k).data, isHexChar c = true) ∧
    (∀ i, gen_id L key = .ok i →
      i.length = 64 ∧ ∀ c ∈ i.data, isHexChar c = true) ∧
    ((gen_hash L m).length = 64 ∧
      ∀ c ∈ (gen_hash L m).data, isHexChar c = true) ∧
    (∀ sig, gen_signature L m key = .ok sig →
      sig.length = 130 ∧ ∀ c ∈ sig.data, isHexChar c = true) := by
  refine ⟨⟨?_, ?_⟩, ?_, ⟨?_, ?_⟩, ?_⟩
  · rw [gen_prvkey, hexEncode_length, L.htoLen]
  · exact fun c hc => hexEncodeL_hexChars _ (L.htoBytesLt k) c hc
  · intro i hi
    obtain ⟨d, rfl⟩ := gen_id_ok_shape L key i hi
    constructor
    · rw [hexEncode_length, L.hsha3Len]
    · exact fun c hc => hexEncodeL_hexChars _ (L.hsha3Lt _) c hc
  · rw [gen_hash, hexEncode_length, L.hsha3Len]
  · exact fun c hc => hexEncodeL_hexChars _ (L.hsha3Lt m) c hc
  · intro sig hs
    obtain ⟨r, s, v, rfl⟩ := gen_signature_ok_shape L m key sig hs
    have hbound : ∀ b ∈ L.toBytes r ++ L.toBytes s ++ [v.val], b < 256 := by
      intro b hb
      rcases List.mem_append.mp hb with hb1 | hb2
      · rcases List.mem_append.mp hb1 with hb1a | hb1b
        · exact L.htoBytesLt r b hb1a
        · exact L.htoBytesLt s b hb1b
      · simp only [List.mem_singleton] at hb2
        have := v.isLt
        omega
    constructor
    · rw [hexEncode_length]
      simp [L.htoLen]
    · exact fun c hc => hexEncodeL_hexChars _ hbound c hc

theorem C9_fixed_widths_witness :
    (gen_prvkey toyLib 3).length = 64 ∧
    (gen_id toyLib toyKeyHex = .ok (hexEncode (List.replicate 32 2)) ∧
      (hexEncode (List.replicate 32 2)).length = 64) ∧
    (gen_hash toyLib "msg").length = 64 ∧
    (gen_signature toyLib "" toyKeyHex = .ok toySigHex ∧ toySigHex.length = 130) := by
  have h := C9_fixed_widths toyLib 3 "" toyKeyHex
  exact ⟨h.1.1, ⟨by decide, (h.2.1 _ (by decide)).1⟩, by decide,
    ⟨by decide, (h.2.2.2 toySigHex (by decide)).1⟩⟩

/-- **C8**: malformed inputs are rejected with a decoding error, never a
silently defaulted value — `recid` on a non-hex signature, on a decoded
length other than 65 bytes, on out-of-range `r`/`s` scalars, on an invalid
recovery indicator or on an unrecoverable point returns the error branch,
and `gen_id`/`gen_signature` on a malformed or out-of-range private key
return the error branch. -/
theorem C8_malformed_rejected {F : Type} [CommRing F] [DecidableEq F]
    {P : Type} [AddCommGroup P] [Module F P] (L : CurveLib F P)
    (m s key : String) :
    (hexDecode s = none → recid L m s = .error "Invalid hex signature") ∧
    (∀ bytes, hexDecode s = some bytes → bytes.length ≠ 65 →
      recid L m s = .error "Invalid signature length") ∧
    (∀ bytes, hexDecode s = some bytes → bytes.length = 65 →
      L.fromBytes (bytes.take 32) = none →
      recid L m s = .error "Invalid signature") ∧
    (∀ bytes r sc, hexDecode s = some bytes → bytes.length = 65 →
      L.fromBytes (bytes.take 32) = some r →
      L.fromBytes ((bytes.drop 32).take 32) = some sc →
      4 ≤ bytes.getD 64 0 →
      recid L m s = .error "Invalid recovery id") ∧
    (∀ bytes r sc v, hexDecode s = some bytes → bytes.length = 65 →
      L.fromBytes (bytes.take 32) = some r →
      L.fromBytes ((bytes.drop 32).take 32) = some sc →
      recIdFromByte (bytes.getD 64 0) = some v →
      L.recoverPoint r v = none →
      recid L m s = .error "Recovery failed") ∧
    (hexDecode key = none →
      gen_id L key = .error "Invalid hex private key" ∧
      gen_signature L m key = .error "Invalid hex private key") ∧
    (∀ kb, hexDecode key = some kb → fromSlice L kb = none →
      gen_id L key = .error "Invalid private key" ∧
      gen_signature L m key = .error "Invalid private key") := by
  refine ⟨?_, ?_, ?_, ?_, ?_, ?_, ?_⟩
  · intro h
    rw [recid, h]
  · intro bytes hb hlen
    rw [recid, hb]
    dsimp only
    rw [if_pos hlen]
  · intro bytes hb hlen hr
    rw [recid, hb]
    dsimp only
    rw [if_neg (by omega), hr]
  · intro bytes r sc hb hlen hr hsc hv
    rw [recid, hb]
    dsimp only
    rw [if_neg (by omega), hr, hsc]
    dsimp only
    rw [show recIdFromByte (bytes.getD 64 0) = none by
      unfold recIdFromByte
      rw [dif_neg (by omega)]]
  · intro bytes r sc v hb hlen hr hsc hv hrec
    rw [recid, hb]
    dsimp only
    rw [if_neg (by omega), hr, hsc]
    dsimp only
    rw [hv]
    dsimp only
    rw [show recoverFromPrehash L (msgScalar L m) r sc v = none by
      rw [recoverFromPrehash, hrec]; rfl]
  · intro h
    constructor
    · rw [gen_id, h]
    · rw [gen_signature, h]
  · intro kb hk hf
    constructor
    · rw [gen_id, hk]
      dsimp only
      rw [hf]
    · rw [gen_signature, hk]
      dsimp only
      rw [hf]

theorem C8_malformed_rejected_witness :
    recid toyLib "m" "zz" = .error "Invalid hex signature" ∧
    recid toyLib "m" "00" = .error "Invalid signature length" ∧
    recid toyLib "m" (hexEncode (List.replicate 65 0)) = .error "Invalid signature" ∧
    recid toyLib "m"
      (hexEncode ((List.replicate 31 0 ++ [1]) ++ ((List.replicate 31 0 ++ [1]) ++ [7])))
      = .error "Invalid recovery id" ∧
    recid toyLib "m"
      (hexEncode ((List.replicate 31 0 ++ [1]) ++ ((List.replicate 31 0 ++ [1]) ++ [2])))
      = .error "Recovery failed" ∧
    gen_id toyLib "xx" = .error "Invalid hex private key" ∧
    gen_signature toyLib "m" (hexEncode (List.replicate 32 0))
      = .error "Invalid private key" := by
  refine ⟨?_, ?_, ?_, ?_, ?_, ?_, ?_⟩
  · exact (C8_malformed_rejected toyLib "m" "zz" "k").1 (by decide)
  · exact (C8_malformed_rejected toyLib "m" "00" "k").2.1 [0] (by decide) (by decide)
  · exact (C8_malformed_rejected toyLib "m" (hexEncode (List.replicate 65 0)) "k").2.2.1
      (List.replicate 65 0) (by decide) (by decide) (by decide)
  · exact (C8_malformed_rejected toyLib "m"
      (hexEncode ((List.replicate 31 0 ++ [1]) ++ ((List.replicate 31 0 ++ [1]) ++ [7])))
      "k").2.2.2.1 ((List.replicate 31 0 ++ [1]) ++ ((List.replicate 31 0 ++ [1]) ++ [7]))
      1 1 (by decide) (by decide) (by decide) (by decide) (by decide)
  · exact (C8_malformed_rejected toyLib "m"
      (hexEncode ((List.replicate 31 0 ++ [1]) ++ ((List.replicate 31 0 ++ [1]) ++ [2])))
      "k").2.2.2.2.1 ((List.replicate 31 0 ++ [1]) ++ ((List.replicate 31 0 ++ [1]) ++ [2]))
      1 1 2 (by decide) (by decide) (by decide) (by decide) (by decide) (by decide)
  · exact ((C8_malformed_rejected toyLib "m" "s" "xx").2.2.2.2.2.1 (by decide)).1
  · exact ((C8_malformed_rejected toyLib "m" "s"
      (hexEncode (List.replicate 32 0))).2.2.2.2.2.2 (List.replicate 32 0)
      (by decide) (by decide)).2

/-! ### Shared `send_rpcmsg` evaluation lemmas -/

theorem send_rpcmsg_failure_case (W : WireCodec) (resp : HttpResponse)
    (body s : String) (reply : RPCReplyMsg) (buf : List Nat) (f : Failure)
    (ht : resp.text = .ok body) (hp : W.parseReply body = .ok reply)
    (hb : base64Decode reply.payload = some buf) (hu : fromUtf8 buf = .ok s)
    (hst : resp.status ≠ 200) (hf : W.parseFailure s = .ok f) :
    send_rpcmsg W (.ok resp) = .error (RPCError.new f.message false) := by
  unfold send_rpcmsg
  dsimp only
  rw [ht]
  dsimp only
  rw [hp]
  dsimp only
  rw [hb]
  dsimp only
  rw [hu]
  dsimp only
  rw [if_pos hst, hf]

theorem send_rpcmsg_success_case (W : WireCodec) (resp : HttpResponse)
    (body s : String) (reply : RPCReplyMsg) (buf : List Nat)
    (ht : resp.text = .ok body) (hp : W.parseReply body = .ok reply)
    (hb : base64Decode reply.payload = some buf) (hu : fromUtf8 buf = .ok s)
    (hst : resp.status = 200) :
    send_rpcmsg W (.ok resp) = .ok s := by
  unfold send_rpcmsg
  dsimp only
  rw [ht]
  dsimp only
  rw [hp]
  dsimp only
  rw [hb]
  dsimp only
  rw [hu]
  dsimp only
  rw [if_neg (not_ne_iff.mpr hst)]

/-- **C1** is falsified by the code: a reply with HTTP status 200 whose
envelope error flag is true is returned as a success value carrying the
decoded payload text — `send_rpcmsg` never consults the error flag. -/
theorem C1_counterexample :
    send_rpcmsg toyCodec (.ok { status := 200, text := .ok bodyErrTrue })
      = .ok failureJson := by decide

/-- **C1** (amended): an application-class error carrying `Failure.message`
is reported exactly when the HTTP status is not 200; the reply envelope's
error flag is not consulted, so a reply with HTTP status 200 whose error
field is true has its decoded payload returned as a success value. -/
theorem C1_amended_status_only (W : WireCodec) (resp : HttpResponse)
    (body s : String) (reply : RPCReplyMsg) (buf : List Nat) (f : Failure)
    (ht : resp.text = .ok body) (hp : W.parseReply body = .ok reply)
    (hb : base64Decode reply.payload = some buf) (hu : fromUtf8 buf = .ok s) :
    (resp.status ≠ 200 → W.parseFailure s = .ok f →
      send_rpcmsg W (.ok resp) = .error (RPCError.new f.message false)) ∧
    (resp.status = 200 → reply.error = true →
      send_rpcmsg W (.ok resp) = .ok s) := by
  constructor
  · intro hst hf
    exact send_rpcmsg_failure_case W resp body s reply buf f ht hp hb hu hst hf
  · intro hst _
    exact send_rpcmsg_success_case W resp body s reply buf ht hp hb hu hst

theorem C1_amended_status_only_witness :
    send_rpcmsg toyCodec (.ok { status := 400, text := .ok bodyErrTrue })
      = .error (RPCError.new "bad request" false) ∧
    send_rpcmsg toyCodec (.ok { status := 200, text := .ok bodyErrTrue })
      = .ok failureJson := by
  have h400 := C1_amended_status_only toyCodec
    { status := 400, text := .ok bodyErrTrue } bodyErrTrue failureJson
    { payloadtype := "error", payload := base64Encode (strBytes failureJson),
      error := true }
    (strBytes failureJson) { status := 400, message := "bad request" }
    (by decide) (by decide) (by decide) (by decide)
  have h200 := C1_amended_status_only toyCodec
    { status := 200, text := .ok bodyErrTrue } bodyErrTrue failureJson
    { payloadtype := "error", payload := base64Encode (strBytes failureJson),
      error := true }
    (strBytes failureJson) { status := 400, message := "bad request" }
    (by decide) (by decide) (by decide) (by decide)
  exact ⟨h400.1 (by decide) (by decide), h200.2 rfl (by decide)⟩

/-- **C6**: `send_rpcmsg` errors are tagged by class — a transport failure
before any response yields a connection-class error (`conn_err = true`),
while a non-success HTTP reply yields an application-class error
(`conn_err = false`) whose message text is exactly the `message` field of
the decoded `Failure` body. -/
theorem C6_error_classes (W : WireCodec) (err : String) (resp : HttpResponse)
    (body s : String) (reply : RPCReplyMsg) (buf : List Nat) (f : Failure)
    (ht : resp.text = .ok body) (hp : W.parseReply body = .ok reply)
    (hb : base64Decode reply.payload = some buf) (hu : fromUtf8 buf = .ok s)
    (hst : resp.status ≠ 200) (hf : W.parseFailure s = .ok f) :
    (send_rpcmsg W (.error err) = .error (RPCError.new err true) ∧
      (RPCError.new err true).conn_err = true) ∧
    (send_rpcmsg W (.ok resp) = .error (RPCError.new f.message false) ∧
      (RPCError.new f.message false).conn_err = false ∧
      (RPCError.new f.message false).details = f.message) :=
  ⟨⟨rfl, rfl⟩,
    send_rpcmsg_failure_case W resp body s reply buf f ht hp hb hu hst hf,
    rfl, rfl⟩

theorem C6_error_classes_witness :
    (send_rpcmsg toyCodec (.error "connection refused")
      = .error (RPCError.new "connection refused" true) ∧
      (RPCError.new "connection refused" true).conn_err = true) ∧
    send_rpcmsg toyCodec (.ok { status := 400, text := .ok bodyErrTrue })
      = .error (RPCError.new "bad request" false) ∧
    (RPCError.new "bad request" false).conn_err = false := by
  have h := C6_error_classes toyCodec "connection refused"
    { status := 400, text := .ok bodyErrTrue } bodyErrTrue failureJson
    { payloadtype := "error", payload := base64Encode (strBytes failureJson),
      error := true }
    (strBytes failureJson) { status := 400, message := "bad request" }
    (by decide) (by decide) (by decide) (by decide) (by decide) (by decide)
  exact ⟨h.1, h.2.1, h.2.2.1⟩

/-- **C7** is falsified by the code: `get_ws_url` replaces every occurrence
of the substring `/api`, so a URL whose authority ends in `api` -- here host
`apihost.com` -- has its host rewritten as well, instead of being left
unchanged. -/
theorem C7_counterexample :
    get_ws_url "http://apihost.com/api" = "ws://pubsubhost.com/pubsub" := by decide

/-- **C7** (amended): `get_ws_url` maps `http` to `ws` (and `https` to
`wss`) and replaces the occurrences of the substring `/api` with `/pubsub`;
for every base URL whose host-port part contains no slash and does not start
with the characters `api`, the only occurrence is the final path segment, so
the host and port are left unchanged. -/
theorem C7_scheme_path_mapping (hp : String) (h1 : ∀ c ∈ hp.data, c ≠ '/')
    (h2 : (['a', 'p', 'i'].isPrefixOf hp.data) = false) :
    get_ws_url ("http://" ++ hp ++ "/api") = "ws://" ++ hp ++ "/pubsub" ∧
    get_ws_url ("https://" ++ hp ++ "/api") = "wss://" ++ hp ++ "/pubsub" :=
  ⟨get_ws_url_http hp h1 h2, get_ws_url_https hp h1 h2⟩

theorem C7_scheme_path_mapping_witness :
    get_ws_url ("http://" ++ "localhost:50080" ++ "/api")
      = "ws://" ++ "localhost:50080" ++ "/pubsub" ∧
    get_ws_url "http://localhost:50080/api" = "ws://localhost:50080/pubsub" := by
  have h := C7_scheme_path_mapping "localhost:50080" (by decide) (by decide)
  exact ⟨h.1, by decide⟩

/-! ### The streaming claims -/

/-- **C4**: in a streaming subscription whose consumer stops (returns
`false`) after its first non-empty batch, a session delivering two non-empty
batches and then a close frame returns `Ok` with exactly the first batch. -/
theorem C4_consumer_stop {σ : Type} (W : WireCodec)
    (cb : σ → List ChannelEntry → σ × Bool) (st0 : σ)
    (hcb : ∀ st b, b ≠ [] → (cb st b).2 = false)
    (t1 t2 : String) (r1 r2 : RPCReplyMsg) (u1 u2 : List Nat) (s1 s2 : String)
    (b1 b2 : List ChannelEntry)
    (hp1 : W.parseReply t1 = .ok r1) (he1 : r1.error = false)
    (hb1 : base64Decode r1.payload = some u1) (hu1 : fromUtf8 u1 = .ok s1)
    (hes1 : W.parseEntries s1 = .ok b1) (hne1 : b1 ≠ [])
    (hp2 : W.parseReply t2 = .ok r2) (he2 : r2.error = false)
    (hb2 : base64Decode r2.payload = some u2) (hu2 : fromUtf8 u2 = .ok s2)
    (hes2 : W.parseEntries s2 = .ok b2) (hne2 : b2 ≠ []) :
    send_ws_subscribe_channel W cb st0
      (.opened [.frame (.text t1), .frame (.text t2), .frame .close])
      = some (.ok b1) := by
  unfold send_ws_subscribe_channel
  dsimp only
  rw [wsLoop.eq_def]
  dsimp only
  rw [hp1]
  dsimp only
  rw [he1]
  simp only [Bool.false_eq_true, if_false]
  rw [hb1]
  dsimp only
  rw [hu1]
  dsimp only
  rw [hes1]
  dsimp only
  have hempty : b1.isEmpty = false := by
    cases b1 with
    | nil => exact absurd rfl hne1
    | cons a l => rfl
  rw [hempty]
  simp only [Bool.false_eq_true, if_false]
  rw [hcb st0 b1 hne1]
  simp only [Bool.false_eq_true, if_false, List.nil_append]

/-- **C5**: a frame whose decoded batch is empty terminates the stream as a
normal non-error outcome, and the client-side timeout does the same; both
return `Ok` with everything accumulated so far (possibly nothing). -/
theorem C5_empty_batch_and_timeout {σ : Type} (W : WireCodec)
    (cb : σ → List ChannelEntry → σ × Bool) (st : σ)
    (acc : List ChannelEntry) (rest : List ReadEvent)
    (t : String) (r : RPCReplyMsg) (u : List Nat) (s : String)
    (hp : W.parseReply t = .ok r) (he : r.error = false)
    (hb : base64Decode r.payload = some u) (hu : fromUtf8 u = .ok s)
    (hes : W.parseEntries s = .ok []) :
    wsLoop W cb st acc (.frame (.text t) :: rest) = some (.ok acc) ∧
    wsLoop W cb st acc (.timedOut :: rest) = some (.ok acc) := by
  constructor
  · rw [wsLoop.eq_def]
    dsimp only
    rw [hp]
    dsimp only
    rw [he]
    simp only [Bool.false_eq_true, if_false]
    rw [hb]
    dsimp only
    rw [hu]
    dsimp only
    rw [hes]
    dsimp only
    simp
  · rw [wsLoop.eq_def]

/-- **C10**: a frame with the error flag set makes the subscription return
an application-class error carrying the decoded `Failure.message`, and the
entries accumulated from earlier frames of the session are discarded — the
error return carries no previously received batch even though the consumer
was already invoked on it. -/
theorem C10_error_frame_discards {σ : Type} (W : WireCodec)
    (cb : σ → List ChannelEntry → σ × Bool) (st0 : σ)
    (t1 t2 : String) (r1 r2 : RPCReplyMsg) (u1 u2 : List Nat) (s1 s2 : String)
    (b1 : List ChannelEntry) (f : Failure)
    (hp1 : W.parseReply t1 = .ok r1) (he1 : r1.error = false)
    (hb1 : base64Decode r1.payload = some u1) (hu1 : fromUtf8 u1 = .ok s1)
    (hes1 : W.parseEntries s1 = .ok b1) (hne1 : b1 ≠ [])
    (hcont : (cb st0 b1).2 = true)
    (hp2 : W.parseReply t2 = .ok r2) (he2 : r2.error = true)
    (hb2 : base64Decode r2.payload = some u2) (hu2 : fromUtf8 u2 = .ok s2)
    (hf : W.parseFailure s2 = .ok f) :
    send_ws_subscribe_channel W cb st0
      (.opened [.frame (.text t1), .frame (.text t2)])
      = some (.error (RPCError.new f.message false)) ∧
    (RPCError.new f.message false).conn_err = false := by
  refine ⟨?_, rfl⟩
  unfold send_ws_subscribe_channel
  dsimp only
  rw [wsLoop.eq_def]
  dsimp only
  rw [hp1]
  dsimp only
  rw [he1]
  simp only [Bool.false_eq_true, if_false]
  rw [hb1]
  dsimp only
  rw [hu1]
  dsimp only
  rw [hes1]
  dsimp only
  have hempty : b1.isEmpty = false := by
    cases b1 with
    | nil => exact absurd rfl hne1
    | cons a l => rfl
  rw [hempty]
  simp only [Bool.false_eq_true, if_false]
  rw [hcont]
  simp only [if_true]
  rw [wsLoop.eq_def]
  dsimp only
  rw [hp2]
  dsimp only
  rw [he2]
  simp only [if_true]
  rw [hb2]
  dsimp only
  rw [hu2]
  dsimp only
  rw [hf]

theorem C4_consumer_stop_witness :
    send_ws_subscribe_channel toyCodec (fun (_ : Unit) _ => ((), false)) ()
      (.opened [.frame (.text wsText1), .frame (.text wsText2), .frame .close])
      = some (.ok [entry1]) := by
  exact C4_consumer_stop toyCodec (fun _ _ => ((), false)) ()
    (fun _ _ _ => rfl)
    wsText1 wsText2
    { payloadtype := "subscribechannelmsg",
      payload := base64Encode (strBytes entriesJson1), error := false }
    { payloadtype := "subscribechannelmsg",
      payload := base64Encode (strBytes entriesJson2), error := false }
    (strBytes entriesJson1) (strBytes entriesJson2) entriesJson1 entriesJson2
    [entry1] [entry2]
    (by decide) (by decide) (by decide) (by decide) (by decide) (by decide)
    (by decide) (by decide) (by decide) (by decide) (by decide) (by decide)

theorem C5_empty_batch_and_timeout_witness :
    wsLoop toyCodec (fun (_ : Unit) _ => ((), true)) () [entry1]
      [.frame (.text wsTextEmpty)] = some (.ok [entry1]) ∧
    wsLoop toyCodec (fun (_ : Unit) _ => ((), true)) () [entry1]
      [.timedOut] = some (.ok [entry1]) := by
  have h := C5_empty_batch_and_timeout toyCodec (fun _ _ => ((), true)) () [entry1] []
    wsTextEmpty
    { payloadtype := "subscribechannelmsg",
      payload := base64Encode (strBytes emptyEntriesJson), error := false }
    (strBytes emptyEntriesJson) emptyEntriesJson
    (by decide) (by decide) (by decide) (by decide) (by decide)
  exact h

theorem C10_error_frame_discards_witness :
    send_ws_subscribe_channel toyCodec (fun (_ : Unit) _ => ((), true)) ()
      (.opened [.frame (.text wsText1), .frame (.text wsTextErr)])
      = some (.error (RPCError.new "bad request" false)) := by
  exact (C10_error_frame_discards toyCodec (fun _ _ => ((), true)) ()
    wsText1 wsTextErr
    { payloadtype := "subscribechannelmsg",
      payload := base64Encode (strBytes entriesJson1), error := false }
    { payloadtype := "error", payload := base64Encode (strBytes failureJson),
      error := true }
    (strBytes entriesJson1) (strBytes failureJson) entriesJson1 failureJson
    [entry1] { status := 400, message := "bad request" }
    (by decide) (by decide) (by decide) (by decide) (by decide) (by decide)
    rfl (by decide) (by decide) (by decide) (by decide) (by decide)).1

end Colonies
